import Mathlib

/-!
Verification of the two-layer neural-network training engine in `src/nn.py`.

The numerics are embedded over the real numbers.  A 2-d numpy array is a
shape-tagged entry function (`Mat`), a 1-d array is a `Vec`, and the
four-key parameter dictionary is the record `ParamsD`.  The process-wide
random generator used by `get_initial_params` is abstracted as explicit
sampler functions supplying the drawn entries.  The only failure the core
can hit is the division by zero in `gradient_descent_epoch` when
`batch_size = 0`; the epoch and the training loop therefore return an
`Option`, with `none` modelling the raised exception.
-/

open Finset

/-- A 2-d numpy float array: an explicit shape plus an entry function.
Entries outside the shape are junk and never consulted by in-domain runs. -/
@[ext] structure Mat where
  rows : ℕ
  cols : ℕ
  entry : ℕ → ℕ → ℝ

/-- A 1-d numpy float array. -/
@[ext] structure Vec where
  len : ℕ
  entry : ℕ → ℝ

/-- numpy `.T`. -/
def Mat.T (A : Mat) : Mat := ⟨A.cols, A.rows, fun i j => A.entry j i⟩

/-- numpy `.dot` (matrix product); the inner dimension is taken from the
left operand, as numpy requires the two to agree. -/
noncomputable def Mat.dot (A B : Mat) : Mat :=
  ⟨A.rows, B.cols, fun i j => ∑ k in Finset.range A.cols, A.entry i k * B.entry k j⟩

/-- Element-wise subtraction `A - B` (shapes agree in-domain). -/
noncomputable def Mat.sub (A B : Mat) : Mat :=
  ⟨A.rows, A.cols, fun i j => A.entry i j - B.entry i j⟩

/-- Element-wise product `np.multiply(A, B)` / `A * B`. -/
noncomputable def Mat.had (A B : Mat) : Mat :=
  ⟨A.rows, A.cols, fun i j => A.entry i j * B.entry i j⟩

/-- The broadcast `1 - A`. -/
noncomputable def Mat.oneSub (A : Mat) : Mat :=
  ⟨A.rows, A.cols, fun i j => 1 - A.entry i j⟩

/-- Division of a matrix by a scalar, `A / c`. -/
noncomputable def Mat.sdiv (A : Mat) (c : ℝ) : Mat :=
  ⟨A.rows, A.cols, fun i j => A.entry i j / c⟩

/-- `np.sum(A, axis=0, keepdims=True)[0]`: column sums as a 1-d array. -/
noncomputable def Mat.colSum (A : Mat) : Vec :=
  ⟨A.cols, fun j => ∑ i in Finset.range A.rows, A.entry i j⟩

/-- The numpy broadcast `A + b` adding a 1-d array to every row. -/
noncomputable def Mat.addRow (A : Mat) (b : Vec) : Mat :=
  ⟨A.rows, A.cols, fun i j => A.entry i j + b.entry j⟩

/-- The python slice `A[start : start + len]` of the rows (clamped at the
end of the array, as python slicing is). -/
def sliceRows (A : Mat) (start len : ℕ) : Mat :=
  ⟨min len (A.rows - start), A.cols, fun i j => A.entry (start + i) j⟩

/-- `np.max(x, axis=1, keepdims=True)` at row `i`: the row maximum.  numpy
raises on an empty row; the `else` branch is outside the source's domain. -/
noncomputable def rowMax (x : Mat) (i : ℕ) : ℝ :=
  if h : (Finset.range x.cols).Nonempty then
    (Finset.range x.cols).sup' h (fun j => x.entry i j)
  else 0

/-- `softmax`, `nn.py` lines 5-17: subtract the row maximum, exponentiate,
normalize by the row sum. -/
noncomputable def softmax (x : Mat) : Mat :=
  ⟨x.rows, x.cols, fun i j =>
    Real.exp (x.entry i j - rowMax x i) /
      ∑ k in Finset.range x.cols, Real.exp (x.entry i k - rowMax x i)⟩

/-- `sigmoid`, `nn.py` lines 20-43: for entries `≥ 0` compute
`1 / (1 + exp(-x))`; for entries `< 0` compute `exp(x) / (1 + exp(x))`. -/
noncomputable def sigmoid (x : Mat) : Mat :=
  ⟨x.rows, x.cols, fun i j =>
    if 0 ≤ x.entry i j then 1 / (1 + Real.exp (-(x.entry i j)))
    else Real.exp (x.entry i j) / (1 + Real.exp (x.entry i j))⟩

/-- The parameter dictionary with its four keys `W1`, `b1`, `W2`, `b2`. -/
@[ext] structure ParamsD where
  W1 : Mat
  b1 : Vec
  W2 : Mat
  b2 : Vec

/-- `get_initial_params`, `nn.py` lines 46-70: `W1` is `input_size × num_hidden`
and `W2` is `num_hidden × num_output`, both filled from `np.random.normal(0,1)`
(the ambient random generator is abstracted as the two sampler functions);
`b1` and `b2` are zero vectors of lengths `num_hidden` and `num_output`. -/
def get_initial_params (normalW1 normalW2 : ℕ → ℕ → ℝ)
    (input_size num_hidden num_output : ℕ) : ParamsD :=
  ⟨⟨input_size, num_hidden, normalW1⟩, ⟨num_hidden, fun _ => 0⟩,
   ⟨num_hidden, num_output, normalW2⟩, ⟨num_output, fun _ => 0⟩⟩

/-- `forward_prop`, `nn.py` lines 73-106: `a1 = sigmoid(data·W1 + b1)`,
`a2 = softmax(a1·W2 + b2)`, and the average cross-entropy loss
`-(1/n) · ΣᵢΣⱼ labels·log(a2)` with `n = len(labels)`. -/
noncomputable def forward_prop (data labels : Mat) (params : ParamsD) :
    Mat × Mat × ℝ :=
  let a1 := sigmoid (Mat.addRow (Mat.dot data params.W1) params.b1)
  let a2 := softmax (Mat.addRow (Mat.dot a1 params.W2) params.b2)
  let n : ℝ := labels.rows
  let loss := -(1 / n) *
    ∑ i in Finset.range labels.rows, ∑ j in Finset.range labels.cols,
      labels.entry i j * Real.log (a2.entry i j)
  (a1, a2, loss)

/-- The type of functions following the `forward_prop` API. -/
abbrev FwdT := Mat → Mat → ParamsD → Mat × Mat × ℝ

/-- `backward_prop`, `nn.py` lines 108-147.  Note: line 134 of the source
reads `a1, a2, _ = forward_prop(data, labels, params)` — the GLOBAL
`forward_prop`; the `forward_prop_func` parameter is never used. -/
noncomputable def backward_prop (data labels : Mat) (params : ParamsD)
    (forward_prop_func : FwdT) : ParamsD :=
  let a1 := (forward_prop data labels params).1
  let a2 := (forward_prop data labels params).2.1
  let n : ℝ := data.rows
  let d1 := Mat.sub a2 labels
  let dW2 := Mat.sdiv (Mat.dot (Mat.T a1) d1) n
  let db2 := Mat.colSum d1
  let d2 := Mat.had (Mat.dot d1 (Mat.T params.W2)) (Mat.had a1 (Mat.oneSub a1))
  let dW1 := Mat.sdiv (Mat.dot (Mat.T data) d2) n
  let db1 := Mat.colSum d2
  ⟨dW1, db1, dW2, db2⟩

/-- The type of functions following the `backward_prop` API. -/
abbrev BwdT := Mat → Mat → ParamsD → FwdT → ParamsD

/-- `backward_prop_regularized`, `nn.py` lines 151-195.  Note: the source
calls the GLOBAL `forward_prop` (line `a1, a2, _ = forward_prop(...)`),
ignoring its `forward_prop_func` argument; then adds `reg * W * 2` to the
weight gradients. -/
noncomputable def backward_prop_regularized (data labels : Mat) (params : ParamsD)
    (forward_prop_func : FwdT) (reg : ℝ) : ParamsD :=
  let a1 := (forward_prop data labels params).1
  let a2 := (forward_prop data labels params).2.1
  let n : ℝ := data.rows
  let d1 := Mat.sub a2 labels
  let dW2 := Mat.sdiv (Mat.dot (Mat.T a1) d1) n
  let db2 := Mat.colSum d1
  let d2 := Mat.had (Mat.dot d1 (Mat.T params.W2)) (Mat.had a1 (Mat.oneSub a1))
  let dW1 := Mat.sdiv (Mat.dot (Mat.T data) d2) n
  let db1 := Mat.colSum d2
  let dW2r : Mat := ⟨dW2.rows, dW2.cols, fun i j => dW2.entry i j + reg * params.W2.entry i j * 2⟩
  let dW1r : Mat := ⟨dW1.rows, dW1.cols, fun i j => dW1.entry i j + reg * params.W1.entry i j * 2⟩
  ⟨dW1r, db1, dW2r, db2⟩

/-- `batches = int(len(train_labels)/batch_size)`: float division followed
by truncation toward zero, i.e. `Int.tdiv`, then clamped to `ℕ` because
`range` of a negative count is empty. -/
def numBatches (nrows : ℕ) (batch_size : ℤ) : ℕ :=
  (Int.tdiv (nrows : ℤ) batch_size).toNat

/-- The loop `for i in range(batches)` of `gradient_descent_epoch`. -/
def epochBatchList (nrows : ℕ) (batch_size : ℤ) : List ℕ :=
  List.range (numBatches nrows batch_size)

/-- One in-place update of `gradient_descent_epoch` (lines 229-233):
`W -= lr·dW` for the weights and `b -= lr·(db/batch_size)` for the biases,
all from the gradient computed once before any of the four updates. -/
noncomputable def sgdUpdate (learning_rate : ℝ) (batch_size : ℤ) (p g : ParamsD) : ParamsD :=
  ⟨⟨p.W1.rows, p.W1.cols, fun i j => p.W1.entry i j - learning_rate * g.W1.entry i j⟩,
   ⟨p.b1.len, fun i => p.b1.entry i - learning_rate * (g.b1.entry i / (batch_size : ℝ))⟩,
   ⟨p.W2.rows, p.W2.cols, fun i j => p.W2.entry i j - learning_rate * g.W2.entry i j⟩,
   ⟨p.b2.len, fun i => p.b2.entry i - learning_rate * (g.b2.entry i / (batch_size : ℝ))⟩⟩

/-- The body of `gradient_descent_epoch` after the batch count is formed:
slice batch `i` as rows `[i*batch_size, i*batch_size + batch_size)`, get the
gradient from `backward_prop_func`, apply one `sgdUpdate`. -/
noncomputable def epochFold (train_data train_labels : Mat) (learning_rate : ℝ)
    (batch_size : ℤ) (fwd : FwdT) (bwd : BwdT) (params : ParamsD) : ParamsD :=
  (epochBatchList train_labels.rows batch_size).foldl
    (fun p i =>
      sgdUpdate learning_rate batch_size p
        (bwd (sliceRows train_data (i * batch_size.toNat) batch_size.toNat)
             (sliceRows train_labels (i * batch_size.toNat) batch_size.toNat) p fwd))
    params

/-- `gradient_descent_epoch`, `nn.py` lines 198-236.  `batch_size = 0`
raises `ZeroDivisionError` at `int(len(train_labels)/batch_size)`,
modelled as `none`; otherwise the epoch runs and returns the final
parameters. -/
noncomputable def gradient_descent_epoch (train_data train_labels : Mat)
    (learning_rate : ℝ) (batch_size : ℤ) (params : ParamsD)
    (forward_prop_func : FwdT) (backward_prop_func : BwdT) : Option ParamsD :=
  if batch_size = 0 then none
  else some (epochFold train_data train_labels learning_rate batch_size
    forward_prop_func backward_prop_func params)

/-- `np.argmax` over indices `0, …, m-1`: the FIRST index attaining the
maximum (later indices replace only on a strictly larger value). -/
noncomputable def argmaxTo (f : ℕ → ℝ) : ℕ → ℕ
  | 0 => 0
  | n + 1 => if f (argmaxTo f n) < f n then n else argmaxTo f n

/-- `compute_accuracy`, `nn.py` lines 266-269: the fraction of rows where
the argmax of the prediction equals the argmax of the label. -/
noncomputable def compute_accuracy (output labels : Mat) : ℝ :=
  (((Finset.range labels.rows).filter
      (fun i => argmaxTo (fun j => output.entry i j) output.cols
              = argmaxTo (fun j => labels.entry i j) labels.cols)).card : ℝ)
    / (labels.rows : ℝ)

/-- The state threaded through the `nn_train` epoch loop: the parameters
plus the four metric lists `cost_train, cost_dev, accuracy_train,
accuracy_dev`. -/
abbrev TrainState := ParamsD × List ℝ × List ℝ × List ℝ × List ℝ

/-- One epoch's metric bookkeeping in `nn_train` (lines 252-258): after the
epoch produced parameters `p`, append train loss/accuracy and dev
loss/accuracy, each evaluated through `forward_prop_func`. -/
noncomputable def trainAppend (td tl dd dl : Mat) (fwd : FwdT) (p : ParamsD)
    (s : TrainState) : TrainState :=
  (p, s.2.1 ++ [(fwd td tl p).2.2], s.2.2.1 ++ [(fwd dd dl p).2.2],
   s.2.2.2.1 ++ [compute_accuracy (fwd td tl p).2.1 tl],
   s.2.2.2.2 ++ [compute_accuracy (fwd dd dl p).2.1 dl])

/-- The `for epoch in range(num_epochs)` loop of `nn_train`: run one
gradient-descent epoch (propagating its failure), then record metrics. -/
noncomputable def trainLoop (td tl dd dl : Mat) (lr : ℝ) (bs : ℤ)
    (fwd : FwdT) (bwd : BwdT) : ℕ → TrainState → Option TrainState
  | 0 => fun s => some s
  | e + 1 => fun s =>
    match gradient_descent_epoch td tl lr bs s.1 fwd bwd with
    | none => none
    | some p => trainLoop td tl dd dl lr bs fwd bwd e (trainAppend td tl dd dl fwd p s)

/-- `nn_train`, `nn.py` lines 238-262.  Note the initializer call
`get_initial_params_func(dim, num_hidden, 10)`: the output class count is
the hard-coded literal `10`, independent of the label matrices. -/
noncomputable def nn_train (train_data train_labels dev_data dev_labels : Mat)
    (get_initial_params_func : ℕ → ℕ → ℕ → ParamsD)
    (forward_prop_func : FwdT) (backward_prop_func : BwdT)
    (num_hidden : ℕ) (learning_rate : ℝ) (num_epochs : ℕ) (batch_size : ℤ) :
    Option TrainState :=
  trainLoop train_data train_labels dev_data dev_labels learning_rate batch_size
    forward_prop_func backward_prop_func num_epochs
    (get_initial_params_func train_data.cols num_hidden 10, [], [], [], [])

/-- The six shape numbers of a parameter record, used to state that the
optimizer never changes any parameter's shape. -/
def pDims (p : ParamsD) : ℕ × ℕ × ℕ × ℕ × ℕ × ℕ :=
  (p.W1.rows, p.W1.cols, p.b1.len, p.W2.rows, p.W2.cols, p.b2.len)

/-- The all-zero sampler: makes `get_initial_params` deterministic for the
concrete instances below. -/
def zSampler : ℕ → ℕ → ℝ := fun _ _ => 0

/-- Concrete 1×1 parameter record. -/
def P0 : ParamsD := get_initial_params zSampler zSampler 1 1 1

/-- Concrete 1×1 data matrix. -/
def D1 : Mat := ⟨1, 1, fun _ _ => 0⟩

/-- Concrete 1×1 one-hot label matrix (single class). -/
def L1 : Mat := ⟨1, 1, fun _ _ => 1⟩

/-- Concrete 2×1 data matrix. -/
def D2 : Mat := ⟨2, 1, fun _ _ => 0⟩

/-- Concrete 2×1 one-hot label matrix. -/
def L2 : Mat := ⟨2, 1, fun _ _ => 1⟩

/-- A 1×2 matrix with large-magnitude entries (700 and -800), echoing the
overflow-safety inputs of the spec. -/
noncomputable def X700 : Mat := ⟨1, 2, fun _ j => if j = 0 then 700 else -800⟩

/-- The 1×1 zero matrix, for `sigmoid(0)`. -/
def XZ : Mat := ⟨1, 1, fun _ _ => 0⟩

/-- Concrete 1×3 training data. -/
def TD1 : Mat := ⟨1, 3, fun _ _ => 0⟩

/-- Concrete 1×2 one-hot label matrix with C = 2 classes. -/
noncomputable def TL2 : Mat := ⟨1, 2, fun _ j => if j = 0 then 1 else 0⟩

/-- A concrete function following the `forward_prop` API whose output
distribution is the constant 1. -/
noncomputable def cF1 : FwdT := fun _ _ _ => (⟨1, 1, fun _ _ => 0⟩, ⟨1, 1, fun _ _ => 1⟩, 0)

/-- A concrete function following the `forward_prop` API whose output
distribution is the constant 2. -/
noncomputable def cF2 : FwdT := fun _ _ _ => (⟨1, 1, fun _ _ => 0⟩, ⟨1, 1, fun _ _ => 2⟩, 0)

/-! ## Helper lemmas -/

/-- With a nonzero batch size the epoch does not raise and runs the fold. -/
theorem epoch_eq_some (td tl : Mat) (lr : ℝ) (bs : ℤ) (p : ParamsD)
    (fwd : FwdT) (bwd : BwdT) (hbs : bs ≠ 0) :
    gradient_descent_epoch td tl lr bs p fwd bwd
      = some (epochFold td tl lr bs fwd bwd p) := by
  unfold gradient_descent_epoch
  exact if_neg hbs

/-- A zero learning rate makes every single update a no-op. -/
theorem sgdUpdate_zero_lr (bs : ℤ) (p g : ParamsD) : sgdUpdate 0 bs p g = p := by
  obtain ⟨⟨r1, c1, e1⟩, ⟨l1, v1⟩, ⟨r2, c2, e2⟩, ⟨l2, v2⟩⟩ := p
  simp [sgdUpdate]

/-- Folding zero-learning-rate updates over any batch list is the identity. -/
theorem foldl_sgd_fixed (bs : ℤ) (G : ParamsD → ℕ → ParamsD) :
    ∀ (l : List ℕ) (p : ParamsD),
      l.foldl (fun q i => sgdUpdate 0 bs q (G q i)) p = p := by
  intro l
  induction l with
  | nil => intro p; rfl
  | cons a t ih =>
    intro p
    rw [List.foldl_cons, sgdUpdate_zero_lr, ih]

/-- Adding `0 * w * 2` element-wise to a matrix changes nothing. -/
theorem mat_reg_zero (A : Mat) (w : ℕ → ℕ → ℝ) :
    Mat.mk A.rows A.cols (fun i j => A.entry i j + 0 * w i j * 2) = A := by
  obtain ⟨r, c, e⟩ := A
  simp

/-- A negative batch size yields a nonpositive truncated quotient, hence an
empty batch list. -/
theorem numBatches_eq_zero_of_neg (N : ℕ) (b : ℤ) (hb : b < 0) :
    numBatches N b = 0 := by
  unfold numBatches
  rw [Int.toNat_eq_zero]
  match b, hb with
  | Int.negSucc m, _ =>
    show -((N / (m + 1) : ℕ) : ℤ) ≤ 0
    exact neg_nonpos.mpr (Int.natCast_nonneg _)

/-- On a natural batch size the truncated quotient is plain `ℕ` division. -/
theorem numBatches_natCast (N b : ℕ) : numBatches N (b : ℤ) = N / b := rfl

/-- A batch size exceeding the row count yields an empty batch list. -/
theorem numBatches_eq_zero_of_lt (N : ℕ) (b : ℤ) (h : (N : ℤ) < b) :
    numBatches N b = 0 := by
  have hb : 0 ≤ b := le_of_lt (lt_of_le_of_lt (Int.natCast_nonneg N) h)
  obtain ⟨m, rfl⟩ : ∃ m : ℕ, b = (m : ℤ) := ⟨b.toNat, (Int.toNat_of_nonneg hb).symm⟩
  rw [numBatches_natCast]
  exact Nat.div_eq_of_lt (by exact_mod_cast h)

/-- With no batches the epoch fold returns the parameters untouched. -/
theorem epochFold_eq_self_of_no_batches (td tl : Mat) (lr : ℝ) (bs : ℤ)
    (fwd : FwdT) (bwd : BwdT) (p : ParamsD) (h : numBatches tl.rows bs = 0) :
    epochFold td tl lr bs fwd bwd p = p := by
  unfold epochFold epochBatchList
  rw [h]
  rfl

/-! ## Claims -/

/-- Claim C1: with `reg = 0` the regularized backward pass returns the same
four-entry gradient record as the plain backward pass on the same data,
labels and parameters (both evaluated through the standard forward pass). -/
theorem claim_c1 (data labels : Mat) (params : ParamsD) :
    backward_prop_regularized data labels params forward_prop 0
      = backward_prop data labels params forward_prop := by
  simp only [backward_prop_regularized, backward_prop]
  exact ParamsD.ext (mat_reg_zero _ _) rfl (mat_reg_zero _ _) rfl

/-- Claim C2: one optimizer epoch with `learning_rate = 0` returns the
parameter record unchanged, for every training set, nonzero batch size,
parameter record and gradient function. -/
theorem claim_c2 (data labels : Mat) (bs : ℤ) (p : ParamsD)
    (fwd : FwdT) (bwd : BwdT) (hbs : bs ≠ 0) :
    gradient_descent_epoch data labels 0 bs p fwd bwd = some p := by
  rw [epoch_eq_some data labels 0 bs p fwd bwd hbs]
  unfold epochFold
  rw [foldl_sgd_fixed]

/-- Witness for C2 at a concrete two-row dataset with batch size 1. -/
theorem claim_c2_witness :
    (1 : ℤ) ≠ 0 ∧ gradient_descent_epoch D2 L2 0 1 P0 forward_prop backward_prop = some P0 :=
  ⟨by decide, claim_c2 D2 L2 1 P0 forward_prop backward_prop (by decide)⟩

/-- Counterexample for C3: with 1 training row, a batch size of 5 (larger
than the dataset) does NOT fail: the epoch returns normally with the
parameters unchanged; a negative batch size does not fail either. -/
theorem claim_c3_counterexample :
    gradient_descent_epoch D1 L1 1 5 P0 forward_prop backward_prop = some P0
    ∧ gradient_descent_epoch D1 L1 1 (-3) P0 forward_prop backward_prop = some P0
    ∧ gradient_descent_epoch D1 L1 1 5 P0 forward_prop backward_prop ≠ none := by
  have h5 : gradient_descent_epoch D1 L1 1 5 P0 forward_prop backward_prop = some P0 := by
    rw [epoch_eq_some D1 L1 1 5 P0 forward_prop backward_prop (by decide)]
    rw [epochFold_eq_self_of_no_batches D1 L1 1 5 forward_prop backward_prop P0 (by decide)]
  have hm : gradient_descent_epoch D1 L1 1 (-3) P0 forward_prop backward_prop = some P0 := by
    rw [epoch_eq_some D1 L1 1 (-3) P0 forward_prop backward_prop (by decide)]
    rw [epochFold_eq_self_of_no_batches D1 L1 1 (-3) forward_prop backward_prop P0 (by decide)]
  refine ⟨h5, hm, ?_⟩
  rw [h5]
  exact Option.some_ne_none P0

/-- Claim C3 as amended: `batch_size = 0` fails (the division by zero);
a negative `batch_size`, or one larger than the number of training rows,
is NOT an error — the epoch performs zero updates and returns the
parameters unchanged; a `batch_size` that does not evenly divide the
dataset is not an error either. -/
theorem claim_c3_amended (data labels : Mat) (lr : ℝ) (p : ParamsD)
    (fwd : FwdT) (bwd : BwdT) (bs : ℤ) :
    (bs = 0 → gradient_descent_epoch data labels lr bs p fwd bwd = none)
    ∧ (bs < 0 → gradient_descent_epoch data labels lr bs p fwd bwd = some p)
    ∧ ((labels.rows : ℤ) < bs → gradient_descent_epoch data labels lr bs p fwd bwd = some p)
    ∧ (0 < bs → gradient_descent_epoch data labels lr bs p fwd bwd ≠ none) := by
  refine ⟨?_, ?_, ?_, ?_⟩
  · intro h
    subst h
    unfold gradient_descent_epoch
    exact if_pos rfl
  · intro h
    rw [epoch_eq_some data labels lr bs p fwd bwd h.ne]
    rw [epochFold_eq_self_of_no_batches data labels lr bs fwd bwd p
      (numBatches_eq_zero_of_neg labels.rows bs h)]
  · intro h
    have hbs : bs ≠ 0 := by
      intro h0
      rw [h0] at h
      exact absurd h (by simp)
    rw [epoch_eq_some data labels lr bs p fwd bwd hbs]
    rw [epochFold_eq_self_of_no_batches data labels lr bs fwd bwd p
      (numBatches_eq_zero_of_lt labels.rows bs h)]
  · intro h
    rw [epoch_eq_some data labels lr bs p fwd bwd h.ne']
    exact Option.some_ne_none _

/-- Witness for the amended C3: the zero, oversized, and positive
batch-size cases at a concrete one-row dataset. -/
theorem claim_c3_amended_witness :
    ((0 : ℤ) = 0 ∧ gradient_descent_epoch D1 L1 1 0 P0 forward_prop backward_prop = none)
    ∧ ((L1.rows : ℤ) < 7 ∧ gradient_descent_epoch D1 L1 1 7 P0 forward_prop backward_prop = some P0)
    ∧ ((0 : ℤ) < 7 ∧ gradient_descent_epoch D1 L1 1 7 P0 forward_prop backward_prop ≠ none) :=
  ⟨⟨rfl, (claim_c3_amended D1 L1 1 P0 forward_prop backward_prop 0).1 rfl⟩,
   ⟨by decide, (claim_c3_amended D1 L1 1 P0 forward_prop backward_prop 7).2.2.1 (by decide)⟩,
   ⟨by decide, (claim_c3_amended D1 L1 1 P0 forward_prop backward_prop 7).2.2.2 (by decide)⟩⟩

/-- Claim C4: `softmax` subtracts the row maximum before exponentiating and
normalizes by the row sum; the row maximum really bounds every row entry;
each output row sums to 1, and each (in-shape) output entry is in `(0, 1]`.
Over ℝ this holds for arbitrary inputs, large magnitudes included. -/
theorem claim_c4 (x : Mat) (i j : ℕ) (hm : 0 < x.cols) (hj : j < x.cols) :
    (softmax x).entry i j
      = Real.exp (x.entry i j - rowMax x i) /
          ∑ k in Finset.range x.cols, Real.exp (x.entry i k - rowMax x i)
    ∧ (∀ k, k < x.cols → x.entry i k ≤ rowMax x i)
    ∧ (∑ k in Finset.range x.cols, (softmax x).entry i k) = 1
    ∧ 0 < (softmax x).entry i j ∧ (softmax x).entry i j ≤ 1 := by
  have hne : (Finset.range x.cols).Nonempty := ⟨0, Finset.mem_range.mpr hm⟩
  have hden : 0 < ∑ k in Finset.range x.cols, Real.exp (x.entry i k - rowMax x i) :=
    Finset.sum_pos (fun k _ => Real.exp_pos _) hne
  refine ⟨rfl, ?_, ?_, ?_, ?_⟩
  · intro k hk
    unfold rowMax
    rw [dif_pos hne]
    exact Finset.le_sup' (fun j => x.entry i j) (Finset.mem_range.mpr hk)
  · show (∑ k in Finset.range x.cols,
      Real.exp (x.entry i k - rowMax x i) /
        ∑ l in Finset.range x.cols, Real.exp (x.entry i l - rowMax x i)) = 1
    rw [← Finset.sum_div]
    exact div_self hden.ne'
  · exact div_pos (Real.exp_pos _) hden
  · show Real.exp (x.entry i j - rowMax x i) /
        ∑ k in Finset.range x.cols, Real.exp (x.entry i k - rowMax x i) ≤ 1
    rw [div_le_one hden]
    exact Finset.single_le_sum (fun k _ => (Real.exp_pos (x.entry i k - rowMax x i)).le)
      (Finset.mem_range.mpr hj)

/-- Witness for C4 on the 1×2 matrix with entries 700 and -800. -/
theorem claim_c4_witness :
    (0 < X700.cols ∧ (0 : ℕ) < X700.cols)
    ∧ (∑ k in Finset.range X700.cols, (softmax X700).entry 0 k) = 1
    ∧ 0 < (softmax X700).entry 0 0 :=
  ⟨⟨by decide, by decide⟩, (claim_c4 X700 0 0 (by decide) (by decide)).2.2.1,
   (claim_c4 X700 0 0 (by decide) (by decide)).2.2.2.1⟩

/-- Claim C5: `sigmoid` computes `1 / (1 + exp(-x))` on nonnegative entries
and `exp(x) / (1 + exp(x))` on negative entries; every output entry is
strictly between 0 and 1; a zero input entry gives exactly 1/2. -/
theorem claim_c5 (x : Mat) (i j : ℕ) :
    (0 ≤ x.entry i j →
      (sigmoid x).entry i j = 1 / (1 + Real.exp (-(x.entry i j))))
    ∧ (x.entry i j < 0 →
      (sigmoid x).entry i j = Real.exp (x.entry i j) / (1 + Real.exp (x.entry i j)))
    ∧ 0 < (sigmoid x).entry i j ∧ (sigmoid x).entry i j < 1
    ∧ (x.entry i j = 0 → (sigmoid x).entry i j = 1 / 2) := by
  by_cases h : 0 ≤ x.entry i j
  · have he : (sigmoid x).entry i j = 1 / (1 + Real.exp (-(x.entry i j))) := by
      show (if 0 ≤ x.entry i j then 1 / (1 + Real.exp (-(x.entry i j)))
        else Real.exp (x.entry i j) / (1 + Real.exp (x.entry i j)))
        = 1 / (1 + Real.exp (-(x.entry i j)))
      rw [if_pos h]
    have hd : 0 < 1 + Real.exp (-(x.entry i j)) := by positivity
    refine ⟨fun _ => he, fun hneg => absurd h (not_le.mpr hneg), ?_, ?_, ?_⟩
    · rw [he]; positivity
    · rw [he, div_lt_one hd]
      have := Real.exp_pos (-(x.entry i j))
      linarith
    · intro h0
      rw [he, h0]
      norm_num
  · have hneg : x.entry i j < 0 := not_le.mp h
    have he : (sigmoid x).entry i j
        = Real.exp (x.entry i j) / (1 + Real.exp (x.entry i j)) := by
      show (if 0 ≤ x.entry i j then 1 / (1 + Real.exp (-(x.entry i j)))
        else Real.exp (x.entry i j) / (1 + Real.exp (x.entry i j)))
        = Real.exp (x.entry i j) / (1 + Real.exp (x.entry i j))
      rw [if_neg h]
    have hd : 0 < 1 + Real.exp (x.entry i j) := by positivity
    refine ⟨fun h0 => absurd h0 h, fun _ => he, ?_, ?_, ?_⟩
    · rw [he]; positivity
    · rw [he, div_lt_one hd]
      linarith
    · intro h0
      exact absurd (le_of_eq h0.symm) h

/-- Witness for C5 at the zero matrix: `sigmoid(0) = 1/2` and the output is
positive. -/
theorem claim_c5_witness :
    XZ.entry 0 0 = 0 ∧ (sigmoid XZ).entry 0 0 = 1 / 2 ∧ 0 < (sigmoid XZ).entry 0 0 :=
  ⟨rfl, (claim_c5 XZ 0 0).2.2.2.2 rfl, (claim_c5 XZ 0 0).2.2.1⟩

/-- Claim C6: for a positive `batch_size` the epoch processes exactly
`floor(N / batch_size)` batches, each fully inside the first `N` rows
(the trailing remainder is dropped), contiguously and in order without
overlap; `batch_size = N` gives exactly one batch, `batch_size > N` gives
zero; and the epoch is precisely the fold of one update per listed batch. -/
theorem claim_c6 (N bs : ℕ) (hbs : 0 < bs) :
    (epochBatchList N (bs : ℤ)).length = N / bs
    ∧ (∀ i ∈ epochBatchList N (bs : ℤ), i * bs + bs ≤ N)
    ∧ (∀ i j : ℕ, i < j → i * bs + bs ≤ j * bs)
    ∧ (bs = N → (epochBatchList N (bs : ℤ)).length = 1)
    ∧ (N < bs → (epochBatchList N (bs : ℤ)).length = 0)
    ∧ (∀ (data labels : Mat) (lr : ℝ) (p : ParamsD) (fwd : FwdT) (bwd : BwdT),
        labels.rows = N →
          gradient_descent_epoch data labels lr (bs : ℤ) p fwd bwd
            = some (epochFold data labels lr (bs : ℤ) fwd bwd p)
          ∧ (N < bs → epochFold data labels lr (bs : ℤ) fwd bwd p = p)) := by
  have hlen : (epochBatchList N (bs : ℤ)).length = N / bs := by
    unfold epochBatchList
    rw [List.length_range, numBatches_natCast]
  have hne : (bs : ℤ) ≠ 0 := by
    exact_mod_cast hbs.ne'
  refine ⟨hlen, ?_, ?_, ?_, ?_, ?_⟩
  · intro i hi
    have hi' : i < N / bs := by
      unfold epochBatchList at hi
      rw [numBatches_natCast] at hi
      exact List.mem_range.mp hi
    calc i * bs + bs = (i + 1) * bs := by ring
      _ ≤ (N / bs) * bs := Nat.mul_le_mul_right bs (Nat.succ_le_of_lt hi')
      _ ≤ N := Nat.div_mul_le_self N bs
  · intro i j hij
    calc i * bs + bs = (i + 1) * bs := by ring
      _ ≤ j * bs := Nat.mul_le_mul_right bs (Nat.succ_le_of_lt hij)
  · intro h
    rw [hlen, h, Nat.div_self (h ▸ hbs)]
  · intro h
    rw [hlen, Nat.div_eq_of_lt h]
  · intro data labels lr p fwd bwd hrows
    refine ⟨epoch_eq_some data labels lr (bs : ℤ) p fwd bwd hne, fun h => ?_⟩
    refine epochFold_eq_self_of_no_batches data labels lr (bs : ℤ) fwd bwd p ?_
    rw [hrows, numBatches_natCast]
    exact Nat.div_eq_of_lt h

/-- Witness for C6: five rows with batch size two give two full batches. -/
theorem claim_c6_witness :
    0 < 2 ∧ (epochBatchList 5 ((2 : ℕ) : ℤ)).length = 5 / 2 :=
  ⟨by decide, (claim_c6 5 2 (by decide)).1⟩

/-- Claim C7: in the gradient the bias entries are bare column sums of the
deltas (no division by `n`), while the weight entries are divided by
`n = data.rows`; one optimizer update subtracts `lr·dW` from the weights
and `lr·(db/batch_size)` from the biases, so that when the batch really has
`batch_size` rows the bias update nets the same `1/n` averaging as the
weights. -/
theorem claim_c7 (data labels : Mat) (params : ParamsD) (f : FwdT)
    (lr : ℝ) (bs : ℤ) (g p : ParamsD) (i j : ℕ)
    (h : (data.rows : ℤ) = bs) :
    (backward_prop data labels params f).b2
      = Mat.colSum (Mat.sub (forward_prop data labels params).2.1 labels)
    ∧ (backward_prop data labels params f).b1
      = Mat.colSum (Mat.had
          (Mat.dot (Mat.sub (forward_prop data labels params).2.1 labels) (Mat.T params.W2))
          (Mat.had (forward_prop data labels params).1
            (Mat.oneSub (forward_prop data labels params).1)))
    ∧ (backward_prop data labels params f).W2
      = Mat.sdiv (Mat.dot (Mat.T (forward_prop data labels params).1)
          (Mat.sub (forward_prop data labels params).2.1 labels)) (data.rows : ℝ)
    ∧ (backward_prop data labels params f).W1
      = Mat.sdiv (Mat.dot (Mat.T data)
          (Mat.had (Mat.dot (Mat.sub (forward_prop data labels params).2.1 labels)
              (Mat.T params.W2))
            (Mat.had (forward_prop data labels params).1
              (Mat.oneSub (forward_prop data labels params).1))))
          (data.rows : ℝ)
    ∧ (sgdUpdate lr bs p g).W1.entry i j = p.W1.entry i j - lr * g.W1.entry i j
    ∧ (sgdUpdate lr bs p g).W2.entry i j = p.W2.entry i j - lr * g.W2.entry i j
    ∧ (sgdUpdate lr bs p g).b1.entry i = p.b1.entry i - lr * (g.b1.entry i / (bs : ℝ))
    ∧ (sgdUpdate lr bs p g).b2.entry i = p.b2.entry i - lr * (g.b2.entry i / (bs : ℝ))
    ∧ (sgdUpdate lr bs p (backward_prop data labels params f)).b2.entry i
      = p.b2.entry i
        - lr * ((Mat.colSum (Mat.sub (forward_prop data labels params).2.1 labels)).entry i
            / (data.rows : ℝ)) := by
  have hc : (bs : ℝ) = ((data.rows : ℕ) : ℝ) := by
    rw [← h]
    norm_num
  refine ⟨rfl, rfl, rfl, rfl, rfl, rfl, rfl, rfl, ?_⟩
  show p.b2.entry i
      - lr * ((backward_prop data labels params f).b2.entry i / (bs : ℝ)) = _
  rw [hc]
  rfl

/-- Witness for C7 at a one-row dataset with batch size one. -/
theorem claim_c7_witness :
    (D1.rows : ℤ) = 1
    ∧ (backward_prop D1 L1 P0 forward_prop).b2
      = Mat.colSum (Mat.sub (forward_prop D1 L1 P0).2.1 L1) :=
  ⟨by decide, (claim_c7 D1 L1 P0 forward_prop 1 1 P0 P0 0 0 (by decide)).1⟩

/-- An optimizer update never changes any parameter shape, so neither does
folding updates over a batch list. -/
theorem pDims_sgd_foldl (lr : ℝ) (bs : ℤ) (G : ParamsD → ℕ → ParamsD) :
    ∀ (l : List ℕ) (p : ParamsD),
      pDims (l.foldl (fun q i => sgdUpdate lr bs q (G q i)) p) = pDims p := by
  intro l
  induction l with
  | nil => intro p; rfl
  | cons a t ih =>
    intro p
    rw [List.foldl_cons, ih]
    rfl

/-- A whole epoch never changes any parameter shape. -/
theorem pDims_epochFold (td tl : Mat) (lr : ℝ) (bs : ℤ) (fwd : FwdT) (bwd : BwdT)
    (p : ParamsD) : pDims (epochFold td tl lr bs fwd bwd p) = pDims p := by
  unfold epochFold
  exact pDims_sgd_foldl lr bs _ _ p

/-- With a nonzero batch size, running `e` epochs of the training loop
always succeeds, appends exactly one entry per epoch to each of the four
metric lists, and preserves every parameter shape. -/
theorem trainLoop_spec (td tl dd dl : Mat) (lr : ℝ) (bs : ℤ)
    (fwd : FwdT) (bwd : BwdT) (hbs : bs ≠ 0) (e : ℕ) :
    ∀ s : TrainState, ∃ s' : TrainState,
      trainLoop td tl dd dl lr bs fwd bwd e s = some s'
      ∧ s'.2.1.length = s.2.1.length + e
      ∧ s'.2.2.1.length = s.2.2.1.length + e
      ∧ s'.2.2.2.1.length = s.2.2.2.1.length + e
      ∧ s'.2.2.2.2.length = s.2.2.2.2.length + e
      ∧ pDims s'.1 = pDims s.1 := by
  induction e with
  | zero =>
    intro s
    exact ⟨s, rfl, by simp, by simp, by simp, by simp, rfl⟩
  | succ e ih =>
    intro s
    have hstep : trainLoop td tl dd dl lr bs fwd bwd (e + 1) s
        = trainLoop td tl dd dl lr bs fwd bwd e
            (trainAppend td tl dd dl fwd (epochFold td tl lr bs fwd bwd s.1) s) := by
      simp only [trainLoop]
      rw [epoch_eq_some td tl lr bs s.1 fwd bwd hbs]
    obtain ⟨s', h1, h2, h3, h4, h5, h6⟩ :=
      ih (trainAppend td tl dd dl fwd (epochFold td tl lr bs fwd bwd s.1) s)
    refine ⟨s', by rw [hstep]; exact h1, ?_, ?_, ?_, ?_, ?_⟩
    · simp only [trainAppend, List.length_append, List.length_cons, List.length_nil] at h2
      omega
    · simp only [trainAppend, List.length_append, List.length_cons, List.length_nil] at h3
      omega
    · simp only [trainAppend, List.length_append, List.length_cons, List.length_nil] at h4
      omega
    · simp only [trainAppend, List.length_append, List.length_cons, List.length_nil] at h5
      omega
    · rw [h6]
      exact pDims_epochFold td tl lr bs fwd bwd s.1

/-- Claim C8: `nn_train` with `num_epochs = 0` returns the freshly
initialized parameters with four empty metric lists; with any epoch count
`e` (and a nonzero batch size) each of the four metric lists has length
exactly `e`. -/
theorem claim_c8 (td tl dd dl : Mat) (init : ℕ → ℕ → ℕ → ParamsD)
    (fwd : FwdT) (bwd : BwdT) (nh : ℕ) (lr : ℝ) (e : ℕ) (bs : ℤ)
    (hbs : bs ≠ 0) :
    nn_train td tl dd dl init fwd bwd nh lr 0 bs
      = some (init td.cols nh 10, [], [], [], [])
    ∧ ∃ p ct cd accT accD,
        nn_train td tl dd dl init fwd bwd nh lr e bs = some (p, ct, cd, accT, accD)
        ∧ ct.length = e ∧ cd.length = e ∧ accT.length = e ∧ accD.length = e := by
  constructor
  · rfl
  · obtain ⟨⟨p, ct, cd, accT, accD⟩, h1, h2, h3, h4, h5, _⟩ :=
      trainLoop_spec td tl dd dl lr bs fwd bwd hbs e (init td.cols nh 10, [], [], [], [])
    exact ⟨p, ct, cd, accT, accD, h1, by simpa using h2, by simpa using h3,
      by simpa using h4, by simpa using h5⟩

/-- Witness for C8 at a concrete dataset, two epochs, batch size one. -/
theorem claim_c8_witness :
    (1 : ℤ) ≠ 0
    ∧ (nn_train D1 L1 D1 L1 (get_initial_params zSampler zSampler)
          forward_prop backward_prop 2 1 0 1
        = some (get_initial_params zSampler zSampler D1.cols 2 10, [], [], [], [])
      ∧ ∃ p ct cd accT accD,
          nn_train D1 L1 D1 L1 (get_initial_params zSampler zSampler)
              forward_prop backward_prop 2 1 2 1
            = some (p, ct, cd, accT, accD)
          ∧ ct.length = 2 ∧ cd.length = 2 ∧ accT.length = 2 ∧ accD.length = 2) :=
  ⟨by decide, claim_c8 D1 L1 D1 L1 (get_initial_params zSampler zSampler)
    forward_prop backward_prop 2 1 2 1 (by decide)⟩

/-- Counterexample for C9: `nn_train` on label matrices with C = 2 classes
still initializes with output size 10: `b2` has length 10 ≠ 2 (and `W2` has
10 columns), because the source hard-codes
`get_initial_params_func(dim, num_hidden, 10)`. -/
theorem claim_c9_counterexample :
    nn_train TD1 TL2 TD1 TL2 (get_initial_params zSampler zSampler)
        forward_prop backward_prop 4 1 0 1
      = some (get_initial_params zSampler zSampler TD1.cols 4 10, [], [], [], [])
    ∧ TL2.cols = 2
    ∧ (get_initial_params zSampler zSampler TD1.cols 4 10).b2.len = 10
    ∧ (get_initial_params zSampler zSampler TD1.cols 4 10).W2.cols = 10
    ∧ (get_initial_params zSampler zSampler TD1.cols 4 10).b2.len ≠ TL2.cols :=
  ⟨rfl, rfl, rfl, rfl, by decide⟩

/-- Claim C9 as amended: `nn_train` initializes the Parameters with the
output class count hard-coded to the literal 10 — `W2` is
`num_hidden × 10` and `b2` has length 10 — regardless of the class count
of the label matrices supplied by the caller (stated at `num_epochs = 0`,
where the program returns the initialized parameters). -/
theorem claim_c9_amended (td tl dd dl : Mat) (r1 r2 : ℕ → ℕ → ℝ)
    (fwd : FwdT) (bwd : BwdT) (nh : ℕ) (lr : ℝ) (bs : ℤ) :
    nn_train td tl dd dl (get_initial_params r1 r2) fwd bwd nh lr 0 bs
      = some (get_initial_params r1 r2 td.cols nh 10, [], [], [], [])
    ∧ (get_initial_params r1 r2 td.cols nh 10).W1.rows = td.cols
    ∧ (get_initial_params r1 r2 td.cols nh 10).W1.cols = nh
    ∧ (get_initial_params r1 r2 td.cols nh 10).W2.rows = nh
    ∧ (get_initial_params r1 r2 td.cols nh 10).W2.cols = 10
    ∧ (get_initial_params r1 r2 td.cols nh 10).b2.len = 10 :=
  ⟨rfl, rfl, rfl, rfl, rfl, rfl⟩

/-- Counterexample for C10: the plain backward pass does NOT invoke its
supplied forward function: two concrete functions following the
`forward_prop` API with different outputs give the SAME gradient, because
`nn.py` line 134 calls the global `forward_prop`. -/
theorem claim_c10_counterexample :
    backward_prop D1 L1 P0 cF1 = backward_prop D1 L1 P0 cF2 := rfl

/-- Claim C10 as amended: BOTH backward passes ignore their
`forward_prop_func` argument and always evaluate the globally defined
`forward_prop`: each returns the same gradient for every supplied
function, in particular the gradient obtained by passing `forward_prop`
itself. -/
theorem claim_c10_amended :
    (∀ (data labels : Mat) (p : ParamsD) (f g : FwdT),
      backward_prop data labels p f = backward_prop data labels p g)
    ∧ (∀ (data labels : Mat) (p : ParamsD) (f : FwdT),
      backward_prop data labels p f = backward_prop data labels p forward_prop)
    ∧ (∀ (data labels : Mat) (p : ParamsD) (reg : ℝ) (f g : FwdT),
      backward_prop_regularized data labels p f reg
        = backward_prop_regularized data labels p g reg)
    ∧ (∀ (data labels : Mat) (p : ParamsD) (reg : ℝ) (f : FwdT),
      backward_prop_regularized data labels p f reg
        = backward_prop_regularized data labels p forward_prop reg) :=
  ⟨fun _ _ _ _ _ => rfl, fun _ _ _ _ => rfl,
   fun _ _ _ _ _ _ => rfl, fun _ _ _ _ _ => rfl⟩
